import Mathlib

/-
Verification of the equipment-hire console application against its
specification.  The embedding below follows src/hailmary.py (the most
complete draft); where a claim also concerns the alternative report
renderer of src/wip.py, that renderer is embedded separately.

Conventions of the embedding:
  * Python integers are modelled as `Int`; Python `//` (floor division)
    is `Int.fdiv` and `%` (sign follows the divisor) is `Int.fmod`.
  * A Python f-string field `x:<w` (left justified, minimum width `w`)
    is `padRight (toString x) w`, and `x:>w` is `padLeft (toString x) w`.
  * Each `print(s)` call of a report contributes the string `s` to the
    list of rendered lines.
-/

namespace EquipHire

/-- One row of the read-only catalogue (`CATALOG` in hailmary.py):
item code, display name, and nightly price in integer pence. -/
structure CatalogEntry where
  code : String
  name : String
  daily_p : Int
deriving DecidableEq

/-- The read-only equipment catalogue, hailmary.py lines 37-49. -/
def CATALOG : List CatalogEntry :=
  [ ⟨"DCH", "Day chairs", 1500⟩,
    ⟨"BCH", "Bed chairs", 2500⟩,
    ⟨"BAS", "Bite Alarm (set of 3)", 2000⟩,
    ⟨"BA1", "Bite Alarm (single)", 500⟩,
    ⟨"BBT", "Bait Boat", 6000⟩,
    ⟨"TNT", "Camping tent", 2000⟩,
    ⟨"SLP", "Sleeping bag", 2000⟩,
    ⟨"R3T", "Rods (3lb TC)", 1000⟩,
    ⟨"RBR", "Rods (Bait runners)", 500⟩,
    ⟨"REB", "Reels (Bait runners)", 1000⟩,
    ⟨"STV", "Camping Gas stove (Double burner)", 1000⟩ ]

/-- Pricing-rule numerator (hailmary.py line 53): 50% per additional night. -/
def ADDITIONAL_NIGHT_MULTIPLIER_NUM : Int := 1

/-- Pricing-rule denominator (hailmary.py line 54). -/
def ADDITIONAL_NIGHT_MULTIPLIER_DEN : Int := 2

/-- Zero-padded two-digit rendering of the pence remainder, modelling the
Python format field `pennies:02d` for the values `0 ≤ pennies < 100`
produced by `% 100`. -/
def pad2 (n : Int) : String :=
  if n < 10 then "0" ++ toString n else "" ++ toString n

/-- `money` from hailmary.py lines 67-71: integer pence rendered as a
sterling string. -/
def money (pence : Int) : String :=
  let pounds := pence.fdiv 100
  let pennies := pence.fmod 100
  "£" ++ toString pounds ++ "." ++ pad2 pennies

/-- Character-wise upper-casing, modelling Python `str.upper()` on the
ASCII strings involved. -/
def upper (s : String) : String :=
  String.mk (s.data.map Char.toUpper)

/-- `find_item` from hailmary.py lines 73-79: first catalogue entry whose
code equals the upper-cased argument, else `none`. -/
def find_item (code : String) : Option CatalogEntry :=
  CATALOG.find? (fun it => it.code == upper code)

/-- `catalog_codes` from hailmary.py lines 81-83. -/
def catalog_codes : String :=
  String.intercalate ", " (CATALOG.map (fun it => it.code))

/-- `calc_line_costs` from hailmary.py lines 199-205 (identical in
wip.py lines 183-191): returns `(first_night, additional, delay)` in
pence.  Python `max(0, nights - 1)` is `max 0 (nights - 1)` and `//` is
`Int.fdiv`. -/
def calc_line_costs (daily_p qty nights : Int) (returned_on_time : Bool) :
    Int × Int × Int :=
  let first_night_p := daily_p * qty
  let add_per_night :=
    (daily_p * qty * ADDITIONAL_NIGHT_MULTIPLIER_NUM).fdiv
      ADDITIONAL_NIGHT_MULTIPLIER_DEN
  let additional_p := add_per_night * max 0 (nights - 1)
  let extra_delay_p := if returned_on_time then 0 else add_per_night
  (first_night_p, additional_p, extra_delay_p)

-- ---------------------------------------------------------------------
-- Claims C1, C2, C9: the pricing engine
-- ---------------------------------------------------------------------

/-- C1: for every daily price ≥ 0, quantity ≥ 1, nights ≥ 1 and either
on-time flag, `calc_line_costs` returns a first-night cost of
`daily_p * qty` and an additional-nights cost of
`⌊daily_p * qty / 2⌋ * (nights - 1)`, with integer floor division
(`Int.fdiv`), no rounding to nearest. -/
theorem calc_line_costs_first_and_additional
    (daily_p qty nights : Int) (b : Bool)
    (hd : 0 ≤ daily_p) (hq : 1 ≤ qty) (hn : 1 ≤ nights) :
    (calc_line_costs daily_p qty nights b).1 = daily_p * qty ∧
    (calc_line_costs daily_p qty nights b).2.1 =
      ((daily_p * qty).fdiv 2) * (nights - 1) := by
  have hmax : max (0 : Int) (nights - 1) = nights - 1 :=
    max_eq_right (by omega)
  constructor
  · rfl
  · show ((daily_p * qty * ADDITIONAL_NIGHT_MULTIPLIER_NUM).fdiv
        ADDITIONAL_NIGHT_MULTIPLIER_DEN) * max 0 (nights - 1) = _
    rw [hmax, ADDITIONAL_NIGHT_MULTIPLIER_NUM,
      ADDITIONAL_NIGHT_MULTIPLIER_DEN, mul_one]

/-- Witness for C1 at daily price 5, quantity 1, nights 2: the additional
cost is `⌊5/2⌋ * 1 = 2`, exhibiting floor truncation. -/
theorem calc_line_costs_first_and_additional_witness :
    (calc_line_costs 5 1 2 true).1 = 5 * 1 ∧
    (calc_line_costs 5 1 2 true).2.1 = (((5 : Int) * 1).fdiv 2) * (2 - 1) :=
  calc_line_costs_first_and_additional 5 1 2 true
    (by decide) (by decide) (by decide)

/-- C2: for every daily price ≥ 0, quantity ≥ 1 and nights ≥ 1, the late
surcharge component of `calc_line_costs` is one half-night charge
`⌊daily_p * qty / 2⌋` when the equipment is late and `0` when it is on
time, independently of `nights`. -/
theorem calc_line_costs_surcharge
    (daily_p qty nights : Int) (b : Bool)
    (hd : 0 ≤ daily_p) (hq : 1 ≤ qty) (hn : 1 ≤ nights) :
    (calc_line_costs daily_p qty nights b).2.2 =
      if b then 0 else (daily_p * qty).fdiv 2 := by
  cases b with
  | false =>
      show ((daily_p * qty * ADDITIONAL_NIGHT_MULTIPLIER_NUM).fdiv
        ADDITIONAL_NIGHT_MULTIPLIER_DEN) = _
      rw [ADDITIONAL_NIGHT_MULTIPLIER_NUM, ADDITIONAL_NIGHT_MULTIPLIER_DEN,
        mul_one]
      rfl
  | true => rfl

/-- Witness for C2 on the spec's example: Day chairs (1500), quantity 1,
one night, returned late, gives surcharge 750 and line total 2250,
rendered "£22.50". -/
theorem calc_line_costs_surcharge_witness :
    ((calc_line_costs 1500 1 1 false).2.2 =
      if false then 0 else ((1500 : Int) * 1).fdiv 2) ∧
    (calc_line_costs 1500 1 1 false).2.2 = 750 ∧
    money 2250 = "£22.50" :=
  ⟨calc_line_costs_surcharge 1500 1 1 false (by decide) (by decide)
    (by decide), by decide, by decide⟩

/-- C9: the first-night and additional-nights components of
`calc_line_costs` do not depend on the on-time flag; only the surcharge
component does. -/
theorem calc_line_costs_flag_independent (daily_p qty nights : Int) :
    (calc_line_costs daily_p qty nights true).1 =
      (calc_line_costs daily_p qty nights false).1 ∧
    (calc_line_costs daily_p qty nights true).2.1 =
      (calc_line_costs daily_p qty nights false).2.1 :=
  ⟨rfl, rfl⟩

-- ---------------------------------------------------------------------
-- Line items, hire records and session state
-- ---------------------------------------------------------------------

/-- One priced item line, the dict built in `read_item_lines`
(hailmary.py lines 231-240). -/
structure LineItem where
  code : String
  name : String
  qty : Int
  daily_p : Int
  first_night_p : Int
  additional_nights_p : Int
  extra_delay_p : Int
  line_total_p : Int
deriving DecidableEq

/-- The body of the `read_item_lines` loop (hailmary.py lines 222-240)
for one entered `CODE, quantity` pair: `_parse_item_line` upper-cases the
code and rejects unknown codes, then the loop prices the line with
`calc_line_costs` and stores the dict, whose `line_total_p` is
`first_p + add_p + delay_p`. -/
def build_line (code : String) (qty nights : Int) (returned_on_time : Bool) :
    Option LineItem :=
  match find_item (upper code) with
  | none => none
  | some item =>
    let daily := item.daily_p
    let (first_p, add_p, delay_p) :=
      calc_line_costs daily qty nights returned_on_time
    some { code := upper code
           name := item.name
           qty := qty
           daily_p := daily
           first_night_p := first_p
           additional_nights_p := add_p
           extra_delay_p := delay_p
           line_total_p := first_p + add_p + delay_p }

/-- The items summary string of hailmary.py line 256:
`", ".join(f"{ln['name']} – {ln['qty']}" for ln in lines)`. -/
def items_summary_of (lines : List LineItem) : String :=
  String.intercalate ", " (lines.map (fun ln => ln.name ++ " – " ++ toString ln.qty))

/-- One saved hire, the dict built in `run_hire_flow`
(hailmary.py lines 260-269). -/
structure HireRecord where
  customer_id : Int
  customer_name : String
  nights : Int
  returned_on_time : Bool
  lines : List LineItem
  extra_delay_p : Int
  total_p : Int
  items_summary : String
deriving DecidableEq

/-- Construction of one hire record from validated inputs
(hailmary.py lines 256-269): the totals are Python `sum(...)` over the
lines' fields, modelled by `List.sum` of the mapped list. -/
def build_hire (next_id : Int) (customer_name : String) (nights : Int)
    (returned_on_time : Bool) (lines : List LineItem) : HireRecord :=
  { customer_id := next_id
    customer_name := customer_name
    nights := nights
    returned_on_time := returned_on_time
    lines := lines
    extra_delay_p := (lines.map (fun ln => ln.extra_delay_p)).sum
    total_p := (lines.map (fun ln => ln.line_total_p)).sum
    items_summary := items_summary_of lines }

/-- `AppState` from hailmary.py lines 58-63: the hire ledger and the
sequential customer-id counter. -/
structure AppState where
  hire_records : List HireRecord
  next_customer_id : Int
deriving DecidableEq

/-- `AppState.__init__`: empty ledger, counter at 101. -/
def AppState.start : AppState :=
  { hire_records := [], next_customer_id := 101 }

/-- The validated inputs of one pass of the `run_hire_flow` loop: the
customer header's name together with nights, the on-time flag, and the
already-priced item lines. -/
structure HireInput where
  customer_name : String
  nights : Int
  returned_on_time : Bool
  lines : List LineItem
deriving DecidableEq

/-- One iteration of `run_hire_flow` (hailmary.py lines 260-271): build
the record, append it to the ledger, increment the counter. -/
def save_hire (st : AppState) (inp : HireInput) : AppState :=
  { hire_records := st.hire_records ++
      [build_hire st.next_customer_id inp.customer_name inp.nights
        inp.returned_on_time inp.lines]
    next_customer_id := st.next_customer_id + 1 }

/-- Several passes of the `run_hire_flow` loop in one session, saving the
given hires in order. -/
def run_session (st : AppState) (inps : List HireInput) : AppState :=
  inps.foldl save_hire st

-- ---------------------------------------------------------------------
-- Claims C4, C5, C10: record invariants and the ledger frame property
-- ---------------------------------------------------------------------

/-- C5: every line item built from a known catalogue code with
quantity ≥ 1 and nights ≥ 1 satisfies
`line_total = first_night + additional_nights + late_surcharge`. -/
theorem build_line_total (code : String) (qty nights : Int) (b : Bool)
    (ln : LineItem) (hq : 1 ≤ qty) (hn : 1 ≤ nights)
    (h : build_line code qty nights b = some ln) :
    ln.line_total_p =
      ln.first_night_p + ln.additional_nights_p + ln.extra_delay_p := by
  unfold build_line at h
  cases hfi : find_item (upper code) with
  | none => rw [hfi] at h; exact absurd h (by simp)
  | some item =>
      rw [hfi] at h
      simp only [Option.some.injEq] at h
      subst h
      rfl

/-- Witness for C5: the Day chairs line at quantity 1, one night,
returned on time. -/
theorem build_line_total_witness :
    (⟨"DCH", "Day chairs", 1, 1500, 1500, 0, 0, 1500⟩ : LineItem).line_total_p =
      (⟨"DCH", "Day chairs", 1, 1500, 1500, 0, 0, 1500⟩ : LineItem).first_night_p +
      (⟨"DCH", "Day chairs", 1, 1500, 1500, 0, 0, 1500⟩ : LineItem).additional_nights_p +
      (⟨"DCH", "Day chairs", 1, 1500, 1500, 0, 0, 1500⟩ : LineItem).extra_delay_p :=
  build_line_total "DCH" 1 1 true _ (by decide) (by decide) (by decide)

/-- C4: a hire record built by the hire flow has `total_p` equal to the
sum of its lines' `line_total_p` and `extra_delay_p` equal to the sum of
its lines' `extra_delay_p`, and the construction is deterministic: two
records built from the same inputs are equal. -/
theorem build_hire_totals (next_id : Int) (nm : String) (nights : Int)
    (b : Bool) (ls : List LineItem) (r1 r2 : HireRecord)
    (h1 : r1 = build_hire next_id nm nights b ls)
    (h2 : r2 = build_hire next_id nm nights b ls) :
    r1.total_p = (ls.map (fun ln => ln.line_total_p)).sum ∧
    r1.extra_delay_p = (ls.map (fun ln => ln.extra_delay_p)).sum ∧
    r1 = r2 := by
  subst h1; subst h2; exact ⟨rfl, rfl, rfl⟩

/-- Witness for C4: a one-line hire (Day chairs, late return). -/
theorem build_hire_totals_witness :
    (build_hire 101 "Jane Smith" 1 false
      [⟨"DCH", "Day chairs", 1, 1500, 1500, 0, 750, 2250⟩]).total_p =
      (([⟨"DCH", "Day chairs", 1, 1500, 1500, 0, 750, 2250⟩] :
        List LineItem).map (fun ln => ln.line_total_p)).sum ∧
    (build_hire 101 "Jane Smith" 1 false
      [⟨"DCH", "Day chairs", 1, 1500, 1500, 0, 750, 2250⟩]).extra_delay_p =
      (([⟨"DCH", "Day chairs", 1, 1500, 1500, 0, 750, 2250⟩] :
        List LineItem).map (fun ln => ln.extra_delay_p)).sum ∧
    build_hire 101 "Jane Smith" 1 false
      [⟨"DCH", "Day chairs", 1, 1500, 1500, 0, 750, 2250⟩] =
    build_hire 101 "Jane Smith" 1 false
      [⟨"DCH", "Day chairs", 1, 1500, 1500, 0, 750, 2250⟩] :=
  build_hire_totals 101 "Jane Smith" 1 false
    [⟨"DCH", "Day chairs", 1, 1500, 1500, 0, 750, 2250⟩] _ _ rfl rfl

/-- C10: saving one hire appends exactly one record at the end of the
ledger, leaves every previously stored record unchanged, grows the
ledger by exactly one, and increments the customer-id counter by exactly
one. -/
theorem save_hire_frame (st : AppState) (inp : HireInput) :
    (save_hire st inp).hire_records =
      st.hire_records ++
        [build_hire st.next_customer_id inp.customer_name inp.nights
          inp.returned_on_time inp.lines] ∧
    (save_hire st inp).hire_records.take st.hire_records.length =
      st.hire_records ∧
    (save_hire st inp).hire_records.length = st.hire_records.length + 1 ∧
    (save_hire st inp).next_customer_id = st.next_customer_id + 1 := by
  refine ⟨rfl, ?_, ?_, rfl⟩
  · exact List.take_left _ _
  · simp [save_hire]

-- ---------------------------------------------------------------------
-- Claim C6: sequential customer ids
-- ---------------------------------------------------------------------

lemma run_session_ids (inps : List HireInput) : ∀ st : AppState,
    (run_session st inps).next_customer_id =
      st.next_customer_id + (inps.length : Int) ∧
    (run_session st inps).hire_records.map (fun r => r.customer_id) =
      st.hire_records.map (fun r => r.customer_id) ++
        (List.range inps.length).map
          (fun i : Nat => st.next_customer_id + (i : Int)) := by
  induction inps with
  | nil => intro st; simp [run_session]
  | cons inp rest ih =>
      intro st
      have hstep : run_session st (inp :: rest) =
          run_session (save_hire st inp) rest := rfl
      obtain ⟨ihn, ihr⟩ := ih (save_hire st inp)
      have hsave_id : (save_hire st inp).next_customer_id =
          st.next_customer_id + 1 := rfl
      have hsave_rec : (save_hire st inp).hire_records =
          st.hire_records ++
            [build_hire st.next_customer_id inp.customer_name inp.nights
              inp.returned_on_time inp.lines] := rfl
      constructor
      · rw [hstep, ihn, hsave_id, List.length_cons]
        push_cast
        ring
      · rw [hstep, ihr, hsave_id, hsave_rec, List.map_append,
          List.append_assoc, List.length_cons, List.range_succ_eq_map]
        congr 1
        rw [List.map_cons, List.map_nil, List.singleton_append,
          List.map_cons, List.map_map]
        congr 1
        · simp [build_hire]
        · apply List.map_congr_left
          intro i _
          simp only [Function.comp_apply]
          push_cast
          ring

/-- C6: starting from a fresh session, saving N hires assigns customer
ids 101, 102, ..., 100+N in ledger order (no gaps or repeats), and the
session counter ends at 101 + N, having been incremented exactly once
per saved record. -/
theorem session_customer_ids (inps : List HireInput) :
    (run_session AppState.start inps).hire_records.map
        (fun r => r.customer_id) =
      (List.range inps.length).map (fun i : Nat => (101 : Int) + (i : Int)) ∧
    (run_session AppState.start inps).next_customer_id =
      101 + (inps.length : Int) := by
  obtain ⟨hn, hr⟩ := run_session_ids inps AppState.start
  refine ⟨?_, hn⟩
  rw [hr]
  rfl

-- ---------------------------------------------------------------------
-- Report renderers
-- ---------------------------------------------------------------------

/-- Python format field `x:<w`: left justify to minimum width `w`. -/
def padRight (s : String) (w : Nat) : String :=
  s ++ String.mk (List.replicate (w - s.length) ' ')

/-- Python format field `x:>w`: right justify to minimum width `w`. -/
def padLeft (s : String) (w : Nat) : String :=
  String.mk (List.replicate (w - s.length) ' ') ++ s

/-- Header row of hailmary.py line 301. -/
def HAIL_HEADER : String :=
  "Customer ID | Equipment                                                       | Number of nights | Total Cost | Returned on time (y/n) | Extra charge for delayed return"

/-- Separator row of hailmary.py line 302. -/
def HAIL_SEP : String :=
  "------------+-----------------------------------------------------------------+------------------+------------+------------------------+--------------------------------"

/-- One data row of hailmary.py line 313: amounts are shown as whole
pounds (`// 100`), the on-time flag as `y`/`n`. -/
def hail_row (r : HireRecord) : String :=
  padRight (toString r.customer_id) 11 ++ " | " ++
  padRight r.items_summary 65 ++ " | " ++
  padRight (toString r.nights) 16 ++ " | " ++
  padRight (toString (r.total_p.fdiv 100)) 10 ++ " | " ++
  padRight (if r.returned_on_time then "y" else "n") 22 ++ " | " ++
  padRight (toString (r.extra_delay_p.fdiv 100)) 30

/-- `run_earnings_report` from hailmary.py lines 286-313, as the list of
printed lines: the empty-ledger message, or a header, a separator and
one row per record — no totals footer is printed. -/
def run_earnings_report (st : AppState) : List String :=
  if st.hire_records.isEmpty then ["\nNo hires recorded yet."]
  else HAIL_HEADER :: HAIL_SEP :: st.hire_records.map hail_row

/-- Insert a comma after every third character, used on the reversed
digit string; models the grouping of Python format field `x:,`. -/
def comma_group : List Char → List Char
  | a :: b :: c :: d :: rest => a :: b :: c :: ',' :: comma_group (d :: rest)
  | l => l

/-- Python format field `x:,` on an integer: decimal digits with a comma
as thousands separator. -/
def commaFmt (n : Int) : String :=
  (if n < 0 then "-" else "") ++
    String.mk (comma_group (toString n.natAbs).data.reverse).reverse

/-- `money` from wip.py lines 50-54: like hailmary's `money` but with a
thousands separator in the pounds part. -/
def money_wip (pence : Int) : String :=
  let pounds := pence.fdiv 100
  let pennies := pence.fmod 100
  "£" ++ commaFmt pounds ++ "." ++ pad2 pennies

/-- The `"-" * 118` rule of wip.py's report. -/
def WIP_DASH : String := String.mk (List.replicate 118 '-')

/-- Header row of wip.py lines 304-307. -/
def WIP_HEADER : String :=
  padRight "ID" 4 ++ " | " ++ padRight "Customer Name" 20 ++ " | " ++
  padRight "Equipment (Name – Qty)" 45 ++ " | " ++ padLeft "Nights" 6 ++
  " | " ++ padLeft "On-Time" 7 ++ " | " ++ padLeft "Late Fee" 10 ++ " | " ++
  padLeft "Total Cost" 12

/-- The item-summary truncation of wip.py lines 313-315: over 45
characters, keep 42 and add an ellipsis. -/
def truncate_summary (s : String) : String :=
  if 45 < s.length then String.mk (s.data.take 42) ++ "..." else s

/-- One data row of wip.py lines 317-325.  wip.py stores the on-time
flag as the string "y"/"n" (built from the boolean collaborator answer),
shown here from the boolean field. -/
def wip_row (r : HireRecord) : String :=
  padRight (toString r.customer_id) 4 ++ " | " ++
  padRight r.customer_name 20 ++ " | " ++
  padRight (truncate_summary r.items_summary) 45 ++ " | " ++
  padLeft (toString r.nights) 6 ++ " | " ++
  padLeft (if r.returned_on_time then "y" else "n") 7 ++ " | " ++
  padLeft (money_wip r.extra_delay_p) 10 ++ " | " ++
  padLeft (money_wip r.total_p) 12

/-- The report loop of wip.py lines 311-326: renders one row per record
while accumulating `grand_total`. -/
def wip_loop : List HireRecord → Int → List String × Int
  | [], acc => ([], acc)
  | r :: rs, acc =>
    let p := wip_loop rs (acc + r.total_p)
    (wip_row r :: p.1, p.2)

/-- The footer of wip.py line 329: the grand total as currency. -/
def wip_footer (grand : Int) : String :=
  padLeft "TOTAL EARNINGS" 100 ++ " : " ++ padLeft (money_wip grand) 15

/-- `run_earnings_report` from wip.py lines 294-329, as the list of
printed lines: title block, header, rows, then a `TOTAL EARNINGS`
footer. -/
def run_earnings_report_wip (st : AppState) : List String :=
  if st.hire_records.isEmpty then ["\nNo hires recorded yet."]
  else
    let p := wip_loop st.hire_records 0
    ("\n" ++ WIP_DASH) :: "Earnings Report" :: WIP_DASH :: WIP_HEADER ::
      WIP_DASH :: (p.1 ++ [WIP_DASH, wip_footer p.2])

-- ---------------------------------------------------------------------
-- Claim C7: the empty-ledger report
-- ---------------------------------------------------------------------

/-- C7: over an empty ledger both report renderers produce exactly the
single informational line and nothing else — no header, separator, data
rows or totals line. -/
theorem report_empty_ledger (st : AppState) (h : st.hire_records = []) :
    run_earnings_report st = ["\nNo hires recorded yet."] ∧
    run_earnings_report_wip st = ["\nNo hires recorded yet."] := by
  rw [run_earnings_report, run_earnings_report_wip, h]
  exact ⟨rfl, rfl⟩

/-- Witness for C7: the fresh session state. -/
theorem report_empty_ledger_witness :
    run_earnings_report AppState.start = ["\nNo hires recorded yet."] ∧
    run_earnings_report_wip AppState.start = ["\nNo hires recorded yet."] :=
  report_empty_ledger AppState.start rfl

-- ---------------------------------------------------------------------
-- Claim C8: catalogue lookup
-- ---------------------------------------------------------------------

/-- C8: the catalogue is a fixed list of 11 entries and `find_item`
returns `some e` exactly when `e` is the (unique) catalogue entry whose
code equals the upper-cased input; for every other string it returns
`none` rather than failing. -/
theorem find_item_lookup :
    CATALOG.length = 11 ∧
    ∀ (s : String) (e : CatalogEntry),
      find_item s = some e ↔ e ∈ CATALOG ∧ e.code = upper s := by
  refine ⟨rfl, ?_⟩
  intro s e
  constructor
  · intro h
    refine ⟨List.mem_of_find?_eq_some h, ?_⟩
    have hp := List.find?_some h
    simpa using hp
  · rintro ⟨hmem, hcode⟩
    cases hfind : CATALOG.find? (fun it => it.code == upper s) with
    | none =>
        exfalso
        rw [List.find?_eq_none] at hfind
        exact hfind e hmem (by simp [hcode])
    | some e2 =>
        have h2mem : e2 ∈ CATALOG := List.mem_of_find?_eq_some hfind
        have h2code : e2.code = upper s := by
          have hp := List.find?_some hfind
          simpa using hp
        have hnodup : (CATALOG.map (fun it => it.code)).Nodup := by decide
        have heq : e2 = e :=
          List.inj_on_of_nodup_map hnodup h2mem hmem (by simp [h2code, hcode])
        rw [find_item, hfind, heq]

/-- Witness for C8: the lower-case code "dch" finds the Day chairs
entry. -/
theorem find_item_lookup_witness :
    find_item "dch" = some ⟨"DCH", "Day chairs", 1500⟩ :=
  (find_item_lookup.2 "dch" ⟨"DCH", "Day chairs", 1500⟩).mpr
    ⟨by decide, by decide⟩

-- ---------------------------------------------------------------------
-- Claim C3: grand total and currency formatting in the report
-- ---------------------------------------------------------------------

/-- `pat` occurs as a contiguous substring of `s`. -/
def strContains (s pat : String) : Prop :=
  ∃ a b : String, s = a ++ pat ++ b

lemma strContains_self (pat : String) : strContains pat pat :=
  ⟨"", "", String.ext (by simp)⟩

lemma strContains_append_left (x s pat : String) (h : strContains s pat) :
    strContains (x ++ s) pat := by
  obtain ⟨a, b, rfl⟩ := h
  exact ⟨x ++ a, b, String.ext (by simp)⟩

lemma strContains_append_right (s y pat : String) (h : strContains s pat) :
    strContains (s ++ y) pat := by
  obtain ⟨a, b, rfl⟩ := h
  exact ⟨a, b ++ y, String.ext (by simp)⟩

lemma strContains_char_mem (s pat : String) (h : strContains s pat)
    (c : Char) (hc : c ∈ pat.data) : c ∈ s.data := by
  obtain ⟨a, b, rfl⟩ := h
  simp only [String.data_append, List.mem_append]
  exact Or.inl (Or.inr hc)

lemma wip_loop_fst (recs : List HireRecord) : ∀ acc : Int,
    (wip_loop recs acc).1 = recs.map wip_row := by
  induction recs with
  | nil => intro acc; rfl
  | cons r rs ih => intro acc; simp [wip_loop, ih]

lemma wip_loop_snd (recs : List HireRecord) : ∀ acc : Int,
    (wip_loop recs acc).2 = acc + (recs.map (fun r => r.total_p)).sum := by
  induction recs with
  | nil => intro acc; simp [wip_loop]
  | cons r rs ih => intro acc; simp [wip_loop, ih]; ring

/-- A concrete one-hire session: Day chairs, quantity 1, one night,
returned late, so the hire's total is 2250 pence. -/
def st1 : AppState :=
  save_hire AppState.start
    { customer_name := "Jane Smith", nights := 1, returned_on_time := false,
      lines := (build_line "DCH" 1 1 false).toList }

/-- C3 counterexample: on the one-hire ledger `st1`, whose grand total
is 2250 pence ("£22.50"), no line rendered by hailmary.py's
`run_earnings_report` contains the currency-formatted grand total — in
fact no line contains the character '£' at all: the rows show whole
pounds only and no totals line is emitted. -/
theorem hail_report_no_currency_totals :
    st1.hire_records ≠ [] ∧
    money ((st1.hire_records.map (fun r => r.total_p)).sum) = "£22.50" ∧
    ∀ l ∈ run_earnings_report st1,
      ¬ strContains l (money ((st1.hire_records.map (fun r => r.total_p)).sum)) := by
  refine ⟨by decide, by decide, ?_⟩
  have hall : ∀ l ∈ run_earnings_report st1, '£' ∉ l.data := by decide
  intro l hl hcon
  exact hall l hl (strContains_char_mem _ _ hcon '£' (by decide))

/-- C3 amended: on every non-empty ledger, wip.py's `run_earnings_report`
ends with the `TOTAL EARNINGS` footer carrying the currency-formatted
grand total (the sum of all records' `total_p`), and each record's data
row appears in the output and contains the record's total cost and late
surcharge formatted as currency by `money_wip`. -/
theorem wip_report_grand_total (st : AppState) (h : st.hire_records ≠ []) :
    (run_earnings_report_wip st).getLast? =
      some (wip_footer ((st.hire_records.map (fun r => r.total_p)).sum)) ∧
    ∀ r ∈ st.hire_records,
      wip_row r ∈ run_earnings_report_wip st ∧
      strContains (wip_row r) (money_wip r.total_p) ∧
      strContains (wip_row r) (money_wip r.extra_delay_p) := by
  have hemp : st.hire_records.isEmpty = false := by
    cases hrec : st.hire_records with
    | nil => exact absurd hrec h
    | cons a l => rfl
  have hrep : run_earnings_report_wip st =
      ("\n" ++ WIP_DASH) :: "Earnings Report" :: WIP_DASH :: WIP_HEADER ::
        WIP_DASH :: ((wip_loop st.hire_records 0).1 ++
          [WIP_DASH, wip_footer (wip_loop st.hire_records 0).2]) := by
    rw [run_earnings_report_wip, hemp]
    rfl
  constructor
  · rw [hrep]
    show (["\n" ++ WIP_DASH, "Earnings Report", WIP_DASH, WIP_HEADER,
        WIP_DASH] ++ ((wip_loop st.hire_records 0).1 ++
          [WIP_DASH, wip_footer (wip_loop st.hire_records 0).2])).getLast? = _
    rw [List.getLast?_append_of_ne_nil _ (by simp),
      List.getLast?_append_of_ne_nil _ (by simp), wip_loop_snd, zero_add]
    rfl
  · intro r hr
    refine ⟨?_, ?_, ?_⟩
    · have hrow : wip_row r ∈ (wip_loop st.hire_records 0).1 := by
        rw [wip_loop_fst]
        exact List.mem_map_of_mem _ hr
      rw [hrep]
      simp only [List.mem_cons, List.mem_append]
      exact Or.inr (Or.inr (Or.inr (Or.inr (Or.inr (Or.inl hrow)))))
    · unfold wip_row
      apply strContains_append_left
      unfold padLeft
      apply strContains_append_left
      exact strContains_self _
    · unfold wip_row
      apply strContains_append_right
      apply strContains_append_right
      apply strContains_append_left
      unfold padLeft
      apply strContains_append_left
      exact strContains_self _

/-- Witness for the amended C3 at the concrete one-hire ledger. -/
theorem wip_report_grand_total_witness :
    (run_earnings_report_wip st1).getLast? =
      some (wip_footer ((st1.hire_records.map (fun r => r.total_p)).sum)) ∧
    ∀ r ∈ st1.hire_records,
      wip_row r ∈ run_earnings_report_wip st1 ∧
      strContains (wip_row r) (money_wip r.total_p) ∧
      strContains (wip_row r) (money_wip r.extra_delay_p) :=
  wip_report_grand_total st1 (by decide)

end EquipHire
